import Mathlib

/-!
Verification of the GLUE fine-tuning script
`examples/pytorch/text-classification/run_glue.py`.

The script's pure logic is shallowly embedded: argument validation
(`DataTrainingArguments.__post_init__`), label-space reconciliation between
the pretrained config's `label2id` and the dataset vocabulary, the label
remapping performed by `preprocess_function`, the compression-initialization
adapters (`get_inputs` of the three `PTInitializingDataLoader` subclasses),
the prediction-file formatting, and the order of the checks and phases of
`main` as an event trace.
-/

namespace RunGlue

/-- Keys of `task_to_keys` in the script: the accepted GLUE task names. -/
def glueTasks : List String :=
  ["cola", "mnli", "mrpc", "qnli", "qqp", "rte", "sst2", "stsb", "wnli"]

/-- Sequencing of a Python list comprehension whose body may raise:
the first failing element aborts the whole computation. -/
def mapOption {α β : Type} (f : α → Option β) : List α → Option (List β)
  | [] => some []
  | a :: as =>
    match f a, mapOption f as with
    | some b, some bs => some (b :: bs)
    | _, _ => none

/-- Python dict lookup on an association list with string keys. -/
def dlookup {β : Type} : List (String × β) → String → Option β
  | [], _ => none
  | p :: m, k => if p.1 == k then some p.2 else dlookup m k

/-- Integer-keyed dict lookup, for a `label_to_id` mapping whose keys are the
raw integer label values of a classification dataset. -/
def ilookup (m : List (Int × Int)) (k : Int) : Option Int :=
  (m.find? (fun p => p.1 == k)).map Prod.snd

/-- The comprehension body of `preprocess_function`, line 596 of the script:
`label_to_id[l] if l != -1 else -1`.  A key missing from the dict is a
`KeyError`, modelled as `none`. -/
def remapLabel (m : List (Int × Int)) (l : Int) : Option Int :=
  if l ≠ -1 then ilookup m l else some (-1)

/-- The label-remapping part of `preprocess_function` (lines 594-597):
labels are rewritten only when `label_to_id is not None` and the batch has a
`label` column; otherwise they pass through unchanged. -/
def preprocessFunctionLabels (label_to_id : Option (List (Int × Int)))
    (hasLabelColumn : Bool) (labels : List Int) : Option (List Int) :=
  match label_to_id, hasLabelColumn with
  | some m, true => mapOption (remapLabel m) labels
  | _, _ => some labels

/-- Batch conversion of `SST2InitializingDataLoader.get_inputs`
(lines 639-645): empty positional args and a kwargs dict selecting
`labels`, `attention_mask` and `input_ids` from the dataloader output. -/
def sst2GetInputs {α : Type} (dataloader_output : String → α) :
    List α × List (String × α) :=
  ([], [("labels", dataloader_output "labels"),
        ("attention_mask", dataloader_output "attention_mask"),
        ("input_ids", dataloader_output "input_ids")])

/-- Batch conversion of `MRPCInitializingDataLoader.get_inputs`
(lines 647-654): like sst2 but additionally selecting `token_type_ids`. -/
def mrpcGetInputs {α : Type} (dataloader_output : String → α) :
    List α × List (String × α) :=
  ([], [("labels", dataloader_output "labels"),
        ("attention_mask", dataloader_output "attention_mask"),
        ("input_ids", dataloader_output "input_ids"),
        ("token_type_ids", dataloader_output "token_type_ids")])

/-- Batch conversion of `MNLIInitializingDataLoader.get_inputs`
(lines 656-662). -/
def mnliGetInputs {α : Type} (dataloader_output : String → α) :
    List α × List (String × α) :=
  ([], [("labels", dataloader_output "labels"),
        ("attention_mask", dataloader_output "attention_mask"),
        ("input_ids", dataloader_output "input_ids")])

/-- Python `str.lower()`, modelled on the character level (ASCII case
folding, which covers every label name the script handles). -/
def strLower (s : String) : String := ⟨s.data.map Char.toLower⟩

/-- Total order used to model Python `sorted` on strings (lexicographic by
code point). -/
abbrev strLe (a b : String) : Prop := compare a b ≠ Ordering.gt

/-- Python `sorted` on a list of strings. -/
def sortStrings (l : List String) : List String := l.insertionSort strLe

/-- Python dict construction from a stream of key-value pairs: a repeated
key keeps its first position but takes the later value. -/
def dictInsert {β : Type} (m : List (String × β)) (k : String) (v : β) :
    List (String × β) :=
  if m.any (fun p => p.1 == k) then
    m.map (fun p => if p.1 == k then (p.1, v) else p)
  else m ++ [(k, v)]

/-- Builds the association list of a Python dict comprehension. -/
def dictOfList {β : Type} (l : List (String × β)) : List (String × β) :=
  l.foldl (fun m p => dictInsert m p.1 p.2) []

/-- Python dict equality on duplicate-free association lists: same keys
with the same values. -/
def dictEqB (a b : List (String × Int)) : Bool :=
  a.all (fun p => dlookup b p.1 == some p.2) &&
  b.all (fun p => dlookup a p.1 == some p.2)

/-- The `label2id` of a fresh `PretrainedConfig(num_labels=n)`:
`LABEL_0 .. LABEL_{n-1}` in order. -/
def defaultLabel2id (num_labels : Nat) : List (String × Int) :=
  (List.range num_labels).map (fun i => ("LABEL_" ++ Nat.repr i, (i : Int)))

/-- Line 564 of the script: `{k.lower(): v for k, v in config.label2id.items()}`. -/
def lowerKeys (m : List (String × Int)) : List (String × Int) :=
  dictOfList (m.map (fun p => (strLower p.1, p.2)))

/-- The two shapes `label_to_id` can take in the script: keyed by position
`i` in `label_list` (named-task branch, line 566), or keyed by the raw label
value (local-data branch, line 574). -/
inductive LabelMap : Type where
  | byPos : List (Nat × Int) → LabelMap
  | byVal : List (String × Nat) → LabelMap
deriving DecidableEq

/-- Label reconciliation, lines 556-578 of the script.  `config.label2id`
is a dict, represented as a duplicate-free association list.  Returns the
computed `label_to_id` together with whether the mismatch warning was
logged; a `KeyError` (impossible when the sorted key lists match) is
`Except.error`. -/
def computeLabelToId (config_label2id : List (String × Int))
    (task_name : Option String) (is_regression : Bool)
    (label_list : List String) (num_labels : Nat) :
    Except String (Option LabelMap × Bool) :=
  if !dictEqB config_label2id (defaultLabel2id num_labels) &&
      task_name.isSome && !is_regression then
    let label_name_to_id := lowerKeys config_label2id
    if sortStrings (label_name_to_id.map Prod.fst) = sortStrings label_list then
      match mapOption (fun i => (label_list.get? i).bind fun lab =>
          (dlookup label_name_to_id lab).map fun v => (i, v))
          (List.range num_labels) with
      | some ps => .ok (some (LabelMap.byPos ps), false)
      | none => .error "KeyError"
    else .ok (none, true)
  else if task_name.isNone && !is_regression then
    .ok (some (LabelMap.byVal (dictOfList (label_list.enum.map fun p => (p.2, p.1)))), false)
  else .ok (none, false)

/-- Stated from the spec's words, not from the code: a case-insensitive full
match between the model's label names and the dataset's label vocabulary,
for comparison with what `computeLabelToId` actually tests. -/
def specCaseInsensitiveFullMatch (modelLabels datasetLabels : List String) : Bool :=
  sortStrings (modelLabels.map strLower) == sortStrings (datasetLabels.map strLower)

/-- One decimal digit character. -/
def digitChar (n : Nat) : Char := Char.ofNat (48 + n % 10)

/-- Decimal digits of a natural number, most significant first. -/
def natDigits (n : Nat) : List Char :=
  if h : n < 10 then [digitChar n]
  else natDigits (n / 10) ++ [digitChar n]
decreasing_by exact Nat.div_lt_self (by omega) (by omega)

/-- The three digits written by the `.3f` fractional part, for a fraction
expressed in thousandths (already rounded). -/
def frac3 (f : Nat) : List Char :=
  [digitChar (f / 100), digitChar (f / 10), digitChar (f % 10)]

/-- Python `f"{item:3.3f}"` on a value given in thousandths: the minimum
width 3 is always met, so the output is sign, integer digits, a point, and
exactly three fractional digits.  Floating-point rounding itself is outside
the model; the argument is the already-rounded value scaled by 1000. -/
def formatFloat3 (milli : Int) : String :=
  ⟨(if milli < 0 then ['-'] else []) ++
    natDigits (milli.natAbs / 1000) ++ '.' :: frac3 (milli.natAbs % 1000)⟩

/-- A string with a single decimal point followed by exactly three digits. -/
def threeDecimalsAfterPoint (s : String) : Prop :=
  ∃ pre post, s.data = pre ++ '.' :: post ∧ '.' ∉ pre ∧
    post.length = 3 ∧ ∀ c ∈ post, c.isDigit = true

/-- Label setup, lines 495-513 of the script: regression flag, the label
vocabulary (`none` when regression), and `num_labels`. -/
def labelSetup (task_name : Option String) (trainLabelNames : List String)
    (labelDtypeFloat : Bool) (uniqueTrainLabels : List String) :
    Bool × Option (List String) × Nat :=
  match task_name with
  | some t =>
    let is_regression := t == "stsb"
    if !is_regression then (false, some trainLabelNames, trainLabelNames.length)
    else (true, none, 1)
  | none =>
    let is_regression := labelDtypeFloat
    if is_regression then (true, none, 1)
    else (false, some (sortStrings uniqueTrainLabels),
          (sortStrings uniqueTrainLabels).length)

/-- A prediction coming out of `np.squeeze` (regression) or `np.argmax`
(classification). -/
inductive PredValue : Type where
  | reg (milli : Int)
  | cls (idx : Nat)
deriving DecidableEq

/-- One line of `predict_results_<task>.txt`, lines 826-831 of the script:
regression values through `f"{index}\t{item:3.3f}\n"`, classification
indices through `label_list[item]`; an out-of-range index is `none`. -/
def predictionLine (is_regression : Bool) (label_list : List String)
    (index : Nat) (item : PredValue) : Option String :=
  if is_regression then
    match item with
    | .reg m => some (Nat.repr index ++ "\t" ++ formatFloat3 m ++ "\n")
    | .cls _ => none
  else
    match item with
    | .cls i => (label_list.get? i).map
        (fun lab => Nat.repr index ++ "\t" ++ lab ++ "\n")
    | .reg _ => none

/-- The fields of `DataTrainingArguments` that the control flow of `main`
inspects. -/
structure DataArgs : Type where
  task_name : Option String
  dataset_name : Option String
  train_file : Option String
  validation_file : Option String
  test_file : Option String
deriving DecidableEq

/-- The fields of `TrainingArguments` that the control flow of `main`
inspects (`nncf_config` records whether a compression config file path was
given). -/
structure TrainingArgs : Type where
  do_train : Bool
  do_eval : Bool
  do_predict : Bool
  overwrite_output_dir : Bool
  resume_from_checkpoint : Option String
  nncf_config : Bool
deriving DecidableEq

/-- The environment of one run: the state of the output directory and the
split names of the loaded dataset. -/
structure Env : Type where
  output_dir_isdir : Bool
  output_dir_nonempty : Bool
  last_checkpoint_in_dir : Option String
  splits : List String
deriving DecidableEq

/-- Observable actions of `main`, in the order they are performed. -/
inductive Event : Type where
  | loadDataset
  | accessSplit (name : String)
  | modelConstruct
  | train (checkpoint : Option String)
  | evaluate (split : String)
  | predictWrite (split : String)
deriving DecidableEq

/-- The fatal errors `main` can raise, in source order of their raise
sites. -/
inductive RunError : Type where
  | unknownTask
  | needTaskOrFiles
  | trainFileExtension
  | validationFileExtension
  | needTestFileForPredict
  | testFileExtension
  | outputDirNotEmpty
  | trainSplitMissing
  | validationSplitMissing
  | testSplitMissing
  | keyError (split : String)
  | unboundInitializingDataLoaderCls
deriving DecidableEq

/-- Events emitted by one phase of `main`, plus the error that aborted it,
if any. -/
abbrev StepResult : Type := List Event × Option RunError

/-- Python `path.split(".")[-1]`: the suffix after the last dot, or the
whole string when it has no dot. -/
def fileExtension (s : String) : String :=
  ⟨(s.data.reverse.takeWhile (fun c => c != '.')).reverse⟩

/-- The lowercasing of `task_name` done first in
`DataTrainingArguments.__post_init__` (line 142). -/
def lowerTaskName (d : DataArgs) : DataArgs :=
  { d with task_name := d.task_name.map strLower }

/-- Validation performed by `DataTrainingArguments.__post_init__`
(lines 140-156), on the already-lowercased arguments. -/
def postInitCheck (d : DataArgs) : Option RunError :=
  match d.task_name with
  | some t => if glueTasks.contains t then none else some .unknownTask
  | none =>
    if d.dataset_name.isSome then none
    else
      match d.train_file, d.validation_file with
      | some tf, some vf =>
        if !(["csv", "json"].contains (fileExtension tf)) then
          some .trainFileExtension
        else if fileExtension vf ≠ fileExtension tf then
          some .validationFileExtension
        else none
      | _, _ => some .needTaskOrFiles

def argCheckPhase (d : DataArgs) : StepResult := ([], postInitCheck d)

/-- The value `last_checkpoint` holds after lines 427-440. -/
def lastCheckpoint (t : TrainingArgs) (env : Env) : Option String :=
  if env.output_dir_isdir && t.do_train && !t.overwrite_output_dir then
    env.last_checkpoint_in_dir
  else none

/-- Last-checkpoint detection, lines 427-440: fatal when the output
directory exists, training is requested, overwriting is off, no checkpoint
is found, and the directory is non-empty. -/
def checkpointPhase (t : TrainingArgs) (env : Env) : StepResult :=
  if env.output_dir_isdir && t.do_train && !t.overwrite_output_dir &&
      env.last_checkpoint_in_dir.isNone && env.output_dir_nonempty then
    ([], some .outputDirNotEmpty)
  else ([], none)

/-- Dataset acquisition, lines 457-491, including the local-file
`do_predict` test-file checks of lines 472-481. -/
def datasetPhase (d : DataArgs) (t : TrainingArgs) : StepResult :=
  if d.task_name.isSome || d.dataset_name.isSome then ([.loadDataset], none)
  else if t.do_predict then
    match d.test_file with
    | some tef =>
      if fileExtension tef = (d.train_file.map fileExtension).getD "" then
        ([.loadDataset], none)
      else ([], some .testFileExtension)
    | none => ([], some .needTestFileForPredict)
  else ([.loadDataset], none)

/-- Indexing `raw_datasets[name]`: the access always happens, and a missing
split is a `KeyError`. -/
def accessSplitStep (env : Env) (name : String) : StepResult :=
  ([.accessSplit name],
   if env.splits.contains name then none else some (.keyError name))

/-- Label setup, lines 495-513: `raw_datasets["train"]` is read unless the
task is the regression task stsb. -/
def labelPhase (d : DataArgs) (env : Env) : StepResult :=
  match d.task_name with
  | some t => if t == "stsb" then ([], none) else accessSplitStep env "train"
  | none => accessSplitStep env "train"

/-- Lines 606-611: the train-split check and read when training is
requested. -/
def trainCheckPhase (t : TrainingArgs) (env : Env) : StepResult :=
  if t.do_train then
    if !(env.splits.contains "train") then ([], some .trainSplitMissing)
    else accessSplitStep env "train"
  else ([], none)

/-- The split name of line 626. -/
def evalSplitName (d : DataArgs) : String :=
  if d.task_name == some "mnli" then "validation_matched" else "validation"

/-- Lines 623-628: the validation-split check and read when evaluation is
requested. -/
def evalCheckPhase (d : DataArgs) (t : TrainingArgs) (env : Env) : StepResult :=
  if t.do_eval then
    if !(env.splits.contains "validation") &&
        !(env.splits.contains "validation_matched") then
      ([], some .validationSplitMissing)
    else accessSplitStep env (evalSplitName d)
  else ([], none)

/-- Lines 664-669: the adapter-class variable is assigned only for these
three task names. -/
def adapterAssigned (task_name : Option String) : Bool :=
  task_name == some "sst2" || task_name == some "mrpc" ||
    task_name == some "mnli"

/-- Lines 630-682: with a compression config and either training or
evaluation requested, building the initializing data loader reads the
adapter-class variable, which is unbound unless `adapterAssigned`. -/
def nncfPhase (d : DataArgs) (t : TrainingArgs) : StepResult :=
  if t.nncf_config then
    if t.do_train && !adapterAssigned d.task_name then
      ([], some .unboundInitializingDataLoaderCls)
    else if t.do_eval && !adapterAssigned d.task_name then
      ([], some .unboundInitializingDataLoaderCls)
    else ([], none)
  else ([], none)

/-- Line 684: `AutoModelForSequenceClassification.from_pretrained`. -/
def modelPhase : StepResult := ([.modelConstruct], none)

/-- The split name of line 717. -/
def predictSplitName (d : DataArgs) : String :=
  if d.task_name == some "mnli" then "test_matched" else "test"

/-- Lines 714-719: the test-split check runs when `do_predict` is set OR a
task name OR a test file was supplied. -/
def predictCheckPhase (d : DataArgs) (t : TrainingArgs) (env : Env) : StepResult :=
  if t.do_predict || d.task_name.isSome || d.test_file.isSome then
    if !(env.splits.contains "test") && !(env.splits.contains "test_matched") then
      ([], some .testSplitMissing)
    else accessSplitStep env (predictSplitName d)
  else ([], none)

/-- Lines 764-770: checkpoint resolution — an explicit resume path wins,
otherwise the detected checkpoint — and the training call. -/
def trainPhase (t : TrainingArgs) (env : Env) : StepResult :=
  if t.do_train then
    match t.resume_from_checkpoint with
    | some c => ([.train (some c)], none)
    | none => ([.train (lastCheckpoint t env)], none)
  else ([], none)

/-- Lines 784-803: evaluation, with the MNLI double-evaluation loop; for
mnli `raw_datasets["validation_mismatched"]` is read before the loop. -/
def evalPhase (d : DataArgs) (t : TrainingArgs) (env : Env) : StepResult :=
  if t.do_eval then
    if d.task_name == some "mnli" then
      if env.splits.contains "validation_mismatched" then
        ([.accessSplit "validation_mismatched", .evaluate (evalSplitName d),
          .evaluate "validation_mismatched"], none)
      else ([.accessSplit "validation_mismatched"],
            some (.keyError "validation_mismatched"))
    else ([.evaluate (evalSplitName d)], none)
  else ([], none)

/-- Lines 805-831: prediction writing, with the MNLI double loop; for mnli
`raw_datasets["test_mismatched"]` is read before the loop. -/
def predictPhase (d : DataArgs) (t : TrainingArgs) (env : Env) : StepResult :=
  if t.do_predict then
    if d.task_name == some "mnli" then
      if env.splits.contains "test_mismatched" then
        ([.accessSplit "test_mismatched", .predictWrite (predictSplitName d),
          .predictWrite "test_mismatched"], none)
      else ([.accessSplit "test_mismatched"], some (.keyError "test_mismatched"))
    else ([.predictWrite (predictSplitName d)], none)
  else ([], none)

/-- Runs phases in order, keeping the events of completed phases and
stopping at the first error. -/
def runPhases : List StepResult → StepResult
  | [] => ([], none)
  | (evs, some e) :: _ => (evs, some e)
  | (evs, none) :: rest => (evs ++ (runPhases rest).1, (runPhases rest).2)

/-- The phases of `main`, in source order. -/
def mainPhases (d0 : DataArgs) (t : TrainingArgs) (env : Env) : List StepResult :=
  [argCheckPhase (lowerTaskName d0), checkpointPhase t env,
   datasetPhase (lowerTaskName d0) t, labelPhase (lowerTaskName d0) env,
   trainCheckPhase t env, evalCheckPhase (lowerTaskName d0) t env,
   nncfPhase (lowerTaskName d0) t, modelPhase,
   predictCheckPhase (lowerTaskName d0) t env, trainPhase t env,
   evalPhase (lowerTaskName d0) t env, predictPhase (lowerTaskName d0) t env]

/-- The control flow of `main` as an event trace with an optional fatal
error. -/
def mainRun (d0 : DataArgs) (t : TrainingArgs) (env : Env) : StepResult :=
  runPhases (mainPhases d0 t env)

/-- Recognizes `Event.evaluate`. -/
def isEvaluate : Event → Bool
  | .evaluate _ => true
  | _ => false

theorem mapOption_length {α β : Type} (f : α → Option β) :
    ∀ (l : List α) (bs : List β), mapOption f l = some bs → bs.length = l.length := by
  intro l
  induction l with
  | nil =>
    intro bs h
    simp only [mapOption] at h
    cases h
    rfl
  | cons a as ih =>
    intro bs h
    simp only [mapOption] at h
    cases hfa : f a with
    | none => rw [hfa] at h; cases hrest : mapOption f as <;> rw [hrest] at h <;> cases h
    | some b =>
      rw [hfa] at h
      cases hrest : mapOption f as with
      | none => rw [hrest] at h; cases h
      | some bs0 =>
        rw [hrest] at h
        cases h
        simp [ih bs0 hrest]

theorem mapOption_get {α β : Type} (f : α → Option β) :
    ∀ (l : List α) (bs : List β), mapOption f l = some bs →
      ∀ (i : Nat) (h1 : i < l.length) (h2 : i < bs.length),
        f (l.get ⟨i, h1⟩) = some (bs.get ⟨i, h2⟩) := by
  intro l
  induction l with
  | nil => intro bs h i h1 h2; exact absurd h1 (by simp)
  | cons a as ih =>
    intro bs h i h1 h2
    simp only [mapOption] at h
    cases hfa : f a with
    | none => rw [hfa] at h; cases hrest : mapOption f as <;> rw [hrest] at h <;> cases h
    | some b =>
      rw [hfa] at h
      cases hrest : mapOption f as with
      | none => rw [hrest] at h; cases h
      | some bs0 =>
        rw [hrest] at h
        cases h
        cases i with
        | zero => simpa using hfa
        | succ n =>
          have h1n : n < as.length := Nat.lt_of_succ_lt_succ h1
          have h2n : n < bs0.length := Nat.lt_of_succ_lt_succ h2
          simpa using ih bs0 hrest n h1n h2n

theorem mapOption_total {α β : Type} (f : α → Option β) :
    ∀ (l : List α), (∀ a ∈ l, (f a).isSome = true) →
      ∃ bs, mapOption f l = some bs := by
  intro l
  induction l with
  | nil => intro _; exact ⟨[], rfl⟩
  | cons a as ih =>
    intro h
    have ha : (f a).isSome = true := h a (List.mem_cons_self a as)
    obtain ⟨b, hb⟩ : ∃ b, f a = some b := Option.isSome_iff_exists.mp ha
    obtain ⟨bs, hbs⟩ := ih (fun x hx => h x (List.mem_cons_of_mem a hx))
    exact ⟨b :: bs, by simp only [mapOption, hb, hbs]⟩

/-- Claim C1: for every `label_to_id` mapping and every list of example
labels, `preprocess_function` maps each label `l` to `label_to_id[l]` when
`l` is not `-1`, and leaves the sentinel value `-1` unchanged. -/
theorem preprocess_label_remap_c1 (m : List (Int × Int)) (labels out : List Int)
    (h : preprocessFunctionLabels (some m) true labels = some out) :
    out.length = labels.length ∧
    ∀ (i : Nat) (hi : i < labels.length) (ho : i < out.length),
      (labels.get ⟨i, hi⟩ = -1 → out.get ⟨i, ho⟩ = -1) ∧
      (labels.get ⟨i, hi⟩ ≠ -1 →
        ilookup m (labels.get ⟨i, hi⟩) = some (out.get ⟨i, ho⟩)) := by
  have h' : mapOption (remapLabel m) labels = some out := h
  refine ⟨mapOption_length _ _ _ h', ?_⟩
  intro i hi ho
  have hpt := mapOption_get (remapLabel m) labels out h' i hi ho
  constructor
  · intro hneg
    rw [hneg] at hpt
    rw [remapLabel, if_neg (by simp)] at hpt
    exact (Option.some.inj hpt).symm
  · intro hne
    rw [remapLabel, if_pos hne] at hpt
    exact hpt

/-- Witness for C1: a concrete two-label vocabulary and a batch holding the
sentinel `-1`, evaluated through `preprocess_function`. -/
theorem preprocess_label_remap_c1_witness :
    preprocessFunctionLabels (some [(0, 7), (1, 9)]) true [1, -1, 0] = some [9, -1, 7] ∧
    ([9, -1, 7] : List Int).length = ([1, -1, 0] : List Int).length ∧
    ∀ (i : Nat) (hi : i < ([1, -1, 0] : List Int).length)
      (ho : i < ([9, -1, 7] : List Int).length),
      (([1, -1, 0] : List Int).get ⟨i, hi⟩ = -1 →
        ([9, -1, 7] : List Int).get ⟨i, ho⟩ = -1) ∧
      (([1, -1, 0] : List Int).get ⟨i, hi⟩ ≠ -1 →
        ilookup [(0, 7), (1, 9)] (([1, -1, 0] : List Int).get ⟨i, hi⟩) =
          some (([9, -1, 7] : List Int).get ⟨i, ho⟩)) :=
  ⟨by decide, preprocess_label_remap_c1 [(0, 7), (1, 9)] [1, -1, 0] [9, -1, 7] (by decide)⟩

/-- Claim C8: each of the three compression-initialization adapters returns
empty positional arguments and a keyword mapping selecting a fixed field
subset of the batch: sst2 and mnli select exactly `labels`,
`attention_mask`, `input_ids`; mrpc selects those three plus
`token_type_ids`, every value being the batch field of the same name. -/
theorem adapters_field_subsets_c8 {α : Type} (batch : String → α) :
    (sst2GetInputs batch).1 = [] ∧ (mrpcGetInputs batch).1 = [] ∧
    (mnliGetInputs batch).1 = [] ∧
    (sst2GetInputs batch).2.map Prod.fst = ["labels", "attention_mask", "input_ids"] ∧
    (mnliGetInputs batch).2 = (sst2GetInputs batch).2 ∧
    (mrpcGetInputs batch).2.map Prod.fst =
      ["labels", "attention_mask", "input_ids", "token_type_ids"] ∧
    (∀ p ∈ (sst2GetInputs batch).2, p.2 = batch p.1) ∧
    (∀ p ∈ (mnliGetInputs batch).2, p.2 = batch p.1) ∧
    (∀ p ∈ (mrpcGetInputs batch).2, p.2 = batch p.1) := by
  refine ⟨rfl, rfl, rfl, rfl, rfl, rfl, ?_, ?_, ?_⟩ <;>
    · intro p hp
      simp only [sst2GetInputs, mnliGetInputs, mrpcGetInputs, List.mem_cons,
        List.not_mem_nil, or_false] at hp
      rcases hp with h | h | h | h <;> (try subst h) <;> rfl

theorem sortStrings_perm (l : List String) : (sortStrings l).Perm l :=
  List.perm_insertionSort _ l

theorem mem_of_sortStrings_eq {a b : List String}
    (h : sortStrings a = sortStrings b) : ∀ x ∈ b, x ∈ a := by
  intro x hx
  exact (sortStrings_perm a).mem_iff.mp (h ▸ (sortStrings_perm b).mem_iff.mpr hx)

theorem dlookup_isSome_of_mem {β : Type} (m : List (String × β)) (k : String)
    (h : k ∈ m.map Prod.fst) : (dlookup m k).isSome = true := by
  induction m with
  | nil => simp at h
  | cons p m ih =>
    simp only [List.map_cons, List.mem_cons] at h
    rw [dlookup]
    cases hpk : (p.1 == k) with
    | true => rfl
    | false =>
      simp only [Bool.false_eq_true, if_neg]
      rcases h with h | h
      · subst h
        simp at hpk
      · exact ih h

/-- Counterexample to claim C2 as stated: a non-default model mapping whose
label names equal the dataset vocabulary verbatim (hence certainly a
case-insensitive full match), yet reconciliation logs the mismatch warning
and leaves `label_to_id` as `None`, because the script lowercases only the
model side before comparing against the raw dataset labels. -/
theorem label_reconciliation_c2_counterexample :
    dictEqB [("A", 0), ("B", 1)] (defaultLabel2id 2) = false ∧
    specCaseInsensitiveFullMatch ["A", "B"] ["A", "B"] = true ∧
    computeLabelToId [("A", 0), ("B", 1)] (some "mnli") false ["A", "B"] 2 =
      .ok (none, true) := by
  refine ⟨by decide, by decide, by rfl⟩

/-- Reduction of `computeLabelToId` in the named-task classification branch
with a non-default model mapping. -/
theorem computeLabelToId_named (config : List (String × Int)) (tname : String)
    (label_list : List String) (num_labels : Nat)
    (hnd : dictEqB config (defaultLabel2id num_labels) = false) :
    computeLabelToId config (some tname) false label_list num_labels =
      (if sortStrings ((lowerKeys config).map Prod.fst) = sortStrings label_list then
        match mapOption (fun i => (label_list.get? i).bind fun lab =>
            (dlookup (lowerKeys config) lab).map fun v => (i, v))
            (List.range num_labels) with
        | some ps => .ok (some (LabelMap.byPos ps), false)
        | none => .error "KeyError"
      else .ok (none, true)) := by
  rw [computeLabelToId, hnd]
  rfl

/-- Claim C2 as amended: for a named classification task with a non-default
model mapping, reconciliation adopts the model's ids exactly when the
model's lowercased label names coincide, as a sorted list, with the raw
dataset vocabulary (so matching is case-insensitive only on the model
side); it then assigns position `i` the lowered-map id of `label_list[i]`.
Otherwise the warning is logged and `label_to_id` stays `None`. -/
theorem label_reconciliation_c2_amended (modelMap : List (String × Int))
    (tname : String) (label_list : List String)
    (hnd : dictEqB modelMap (defaultLabel2id label_list.length) = false) :
    (sortStrings ((lowerKeys modelMap).map Prod.fst) = sortStrings label_list →
      ∃ ps, computeLabelToId modelMap (some tname) false label_list label_list.length =
          .ok (some (LabelMap.byPos ps), false) ∧
        ps.length = label_list.length ∧
        ∀ i : Nat, i < label_list.length →
          ∃ lab v, label_list.get? i = some lab ∧
            dlookup (lowerKeys modelMap) lab = some v ∧
            ps.get? i = some (i, v)) ∧
    (sortStrings ((lowerKeys modelMap).map Prod.fst) ≠ sortStrings label_list →
      computeLabelToId modelMap (some tname) false label_list label_list.length =
        .ok (none, true)) := by
  constructor
  · intro hmatch
    have htot : ∀ i ∈ List.range label_list.length,
        ((label_list.get? i).bind fun lab =>
          (dlookup (lowerKeys modelMap) lab).map fun v => (i, v)).isSome = true := by
      intro i hi0
      rw [List.mem_range] at hi0
      have h0 : label_list.get? i = some (label_list.get ⟨i, hi0⟩) :=
        List.get?_eq_get hi0
      rw [h0]
      have hkeys : label_list.get ⟨i, hi0⟩ ∈ (lowerKeys modelMap).map Prod.fst :=
        mem_of_sortStrings_eq hmatch _ (List.get_mem _ _ _)
      obtain ⟨v, hv⟩ :=
        Option.isSome_iff_exists.mp (dlookup_isSome_of_mem _ _ hkeys)
      show ((dlookup (lowerKeys modelMap) (label_list.get ⟨i, hi0⟩)).map
        fun v => (i, v)).isSome = true
      rw [hv]
      rfl
    obtain ⟨ps, hps⟩ := mapOption_total _ _ htot
    refine ⟨ps, ?_, ?_, ?_⟩
    · rw [computeLabelToId_named _ _ _ _ hnd, if_pos hmatch, hps]
    · rw [mapOption_length _ _ _ hps, List.length_range]
    · intro i hilt
      have hlen : ps.length = label_list.length := by
        rw [mapOption_length _ _ _ hps, List.length_range]
      have hi1 : i < (List.range label_list.length).length := by
        rw [List.length_range]; exact hilt
      have hi2 : i < ps.length := by rw [hlen]; exact hilt
      have hpt := mapOption_get _ _ _ hps i hi1 hi2
      have hri : (List.range label_list.length).get ⟨i, hi1⟩ = i :=
        List.get_range i hi1
      rw [hri] at hpt
      have h0 : label_list.get? i = some (label_list.get ⟨i, hilt⟩) :=
        List.get?_eq_get hilt
      rw [h0] at hpt
      have hpt2 : ((dlookup (lowerKeys modelMap) (label_list.get ⟨i, hilt⟩)).map
          fun v => (i, v)) = some (ps.get ⟨i, hi2⟩) := hpt
      cases hdl : dlookup (lowerKeys modelMap) (label_list.get ⟨i, hilt⟩) with
      | none => rw [hdl] at hpt2; cases hpt2
      | some v =>
        rw [hdl] at hpt2
        have hiv : (i, v) = ps.get ⟨i, hi2⟩ := Option.some.inj hpt2
        refine ⟨label_list.get ⟨i, hilt⟩, v, h0, hdl, ?_⟩
        have h2 : ps.get? i = some (ps.get ⟨i, hi2⟩) := List.get?_eq_get hi2
        rw [h2, ← hiv]
  · intro hmis
    rw [computeLabelToId_named _ _ _ _ hnd, if_neg hmis]

/-- Witness for the amended C2 theorem: a model config carrying uppercase
label names for a two-label task whose dataset vocabulary is lowercase. -/
theorem label_reconciliation_c2_amended_witness :
    ∃ ps, computeLabelToId [("Positive", 1), ("Negative", 0)] (some "mrpc") false
        ["negative", "positive"] (["negative", "positive"] : List String).length =
        .ok (some (LabelMap.byPos ps), false) ∧
      ps.length = (["negative", "positive"] : List String).length ∧
      ∀ i : Nat, i < (["negative", "positive"] : List String).length →
        ∃ lab v, (["negative", "positive"] : List String).get? i = some lab ∧
          dlookup (lowerKeys [("Positive", 1), ("Negative", 0)]) lab = some v ∧
          ps.get? i = some (i, v) :=
  (label_reconciliation_c2_amended [("Positive", 1), ("Negative", 0)] "mrpc"
    ["negative", "positive"] (by decide)).1 (by decide)

/-- Witness for C8: the adapters applied to the identity batch. -/
theorem adapters_field_subsets_c8_witness :
    (sst2GetInputs (fun s : String => s)).2.map Prod.fst =
      ["labels", "attention_mask", "input_ids"] ∧
    (mrpcGetInputs (fun s : String => s)).2.map Prod.fst =
      ["labels", "attention_mask", "input_ids", "token_type_ids"] ∧
    (("labels", "labels") ∈ (sst2GetInputs (fun s : String => s)).2 →
      ("labels", "labels").2 = ("labels", "labels").1) :=
  ⟨(adapters_field_subsets_c8 (fun s => s)).2.2.2.1,
   (adapters_field_subsets_c8 (fun s => s)).2.2.2.2.2.1,
   fun h => (adapters_field_subsets_c8 (fun s => s)).2.2.2.2.2.2.1 _ h⟩

theorem digitChar_isDigit (n : Nat) : (digitChar n).isDigit = true := by
  have h : n % 10 < 10 := Nat.mod_lt _ (by omega)
  unfold digitChar
  generalize n % 10 = m at h ⊢
  interval_cases m <;> decide

theorem digitChar_ne_dot (n : Nat) : digitChar n ≠ '.' := by
  intro h
  have := digitChar_isDigit n
  rw [h] at this
  exact absurd this (by decide)

theorem natDigits_isDigit (n : Nat) : ∀ c ∈ natDigits n, c.isDigit = true := by
  induction n using Nat.strong_induction_on with
  | _ n ih =>
    intro c hc
    rw [natDigits] at hc
    split at hc
    · simp only [List.mem_singleton] at hc
      subst hc
      exact digitChar_isDigit n
    · rcases List.mem_append.mp hc with h | h
      · exact ih (n / 10) (Nat.div_lt_self (by omega) (by omega)) c h
      · simp only [List.mem_singleton] at h
        subst h
        exact digitChar_isDigit n

/-- Claim C6: for the task stsb the run is regression — no label vocabulary,
`num_labels = 1` — and every regression prediction line carries exactly
three digits after the decimal point, while classification lines carry the
original label string from the vocabulary. -/
theorem stsb_regression_formatting_c6 :
    (∀ (trainLabelNames : List String) (dt : Bool) (uniq : List String),
      labelSetup (some "stsb") trainLabelNames dt uniq = (true, none, 1)) ∧
    (∀ (label_list : List String) (index : Nat) (m : Int),
      predictionLine true label_list index (.reg m) =
        some (Nat.repr index ++ "\t" ++ formatFloat3 m ++ "\n") ∧
      threeDecimalsAfterPoint (formatFloat3 m)) ∧
    (∀ (label_list : List String) (index i : Nat) (lab : String),
      label_list.get? i = some lab →
      predictionLine false label_list index (.cls i) =
        some (Nat.repr index ++ "\t" ++ lab ++ "\n")) := by
  refine ⟨fun _ _ _ => rfl, ?_, ?_⟩
  · intro ll index m
    refine ⟨rfl, (if m < 0 then ['-'] else []) ++ natDigits (m.natAbs / 1000),
      frac3 (m.natAbs % 1000), ?_, ?_, rfl, ?_⟩
    · show ((if m < 0 then ['-'] else []) ++
        natDigits (m.natAbs / 1000) ++ '.' :: frac3 (m.natAbs % 1000)) = _
      rw [List.append_assoc]
    · intro hdot
      rcases List.mem_append.mp hdot with h | h
      · split at h
        · simp only [List.mem_singleton] at h
          exact absurd h (by decide)
        · simp at h
      · exact absurd (natDigits_isDigit _ _ h) (by decide)
    · intro c hc
      simp only [frac3, List.mem_cons, List.not_mem_nil, or_false] at hc
      rcases hc with rfl | rfl | rfl <;> exact digitChar_isDigit _
  · intro ll index i lab h
    show (ll.get? i).map (fun lab => Nat.repr index ++ "\t" ++ lab ++ "\n") = _
    rw [h]
    rfl

/-- Witness for C6: concrete stsb label setup, the line for prediction
value -1.500 at index 4, and a classification line from a two-label
vocabulary. -/
theorem stsb_regression_formatting_c6_witness :
    labelSetup (some "stsb") ["x"] false [] = (true, none, 1) ∧
    predictionLine true [] 4 (.reg (-1500)) =
      some (Nat.repr 4 ++ "\t" ++ formatFloat3 (-1500) ++ "\n") ∧
    threeDecimalsAfterPoint (formatFloat3 (-1500)) ∧
    (["not_equivalent", "equivalent"].get? 1 = some "equivalent") ∧
    predictionLine false ["not_equivalent", "equivalent"] 0 (.cls 1) =
      some (Nat.repr 0 ++ "\t" ++ "equivalent" ++ "\n") :=
  ⟨stsb_regression_formatting_c6.1 ["x"] false [],
   (stsb_regression_formatting_c6.2.1 [] 4 (-1500)).1,
   (stsb_regression_formatting_c6.2.1 [] 4 (-1500)).2,
   rfl,
   stsb_regression_formatting_c6.2.2 ["not_equivalent", "equivalent"] 0 1
     "equivalent" rfl⟩

theorem runPhases_cons_some (evs : List Event) (e : RunError)
    (rest : List StepResult) : runPhases ((evs, some e) :: rest) = (evs, some e) := rfl

theorem runPhases_cons_none (evs : List Event) (rest : List StepResult) :
    runPhases ((evs, none) :: rest) =
      (evs ++ (runPhases rest).1, (runPhases rest).2) := rfl

theorem runPhases_ok (l : List StepResult) (h : (runPhases l).2 = none) :
    (∀ r ∈ l, r.2 = none) ∧ (runPhases l).1 = (l.map Prod.fst).flatten := by
  induction l with
  | nil => exact ⟨by simp, rfl⟩
  | cons hd tl ih =>
    rcases hd with ⟨evs, err⟩
    cases err with
    | some e => rw [runPhases_cons_some] at h; cases h
    | none =>
      rw [runPhases_cons_none] at h
      replace h : (runPhases tl).2 = none := h
      obtain ⟨hall, hev⟩ := ih h
      constructor
      · intro r hr
        rcases List.mem_cons.mp hr with rfl | hr
        · rfl
        · exact hall r hr
      · rw [runPhases_cons_none]
        rw [List.map_cons, List.flatten_cons, hev]

theorem runPhases_append_ok (l1 l2 : List StepResult)
    (h : ∀ r ∈ l1, r.2 = none) :
    runPhases (l1 ++ l2) =
      ((l1.map Prod.fst).flatten ++ (runPhases l2).1, (runPhases l2).2) := by
  induction l1 with
  | nil => simp
  | cons hd tl ih =>
    rcases hd with ⟨evs, err⟩
    have herr : err = none := h (evs, err) (List.mem_cons_self _ _)
    subst herr
    rw [List.cons_append, runPhases_cons_none,
      ih (fun r hr => h r (List.mem_cons_of_mem _ hr))]
    simp [List.append_assoc]

theorem argCheckPhase_events (d : DataArgs) : (argCheckPhase d).1 = [] := rfl

theorem checkpointPhase_events (t : TrainingArgs) (env : Env) :
    (checkpointPhase t env).1 = [] := by
  rw [checkpointPhase]
  split <;> rfl

theorem datasetPhase_events (d : DataArgs) (t : TrainingArgs) :
    ∀ e ∈ (datasetPhase d t).1, e = .loadDataset := by
  intro e he
  rw [datasetPhase] at he
  split at he
  · simpa using he
  · split at he
    · split at he
      · split at he
        · simpa using he
        · simp at he
      · simp at he
    · simpa using he

theorem labelPhase_events (d : DataArgs) (env : Env) :
    ∀ e ∈ (labelPhase d env).1, e = .accessSplit "train" := by
  intro e he
  rw [labelPhase] at he
  split at he
  · split at he
    · simp at he
    · simpa [accessSplitStep] using he
  · simpa [accessSplitStep] using he

theorem trainCheckPhase_events (t : TrainingArgs) (env : Env) :
    ∀ e ∈ (trainCheckPhase t env).1, e = .accessSplit "train" := by
  intro e he
  rw [trainCheckPhase] at he
  split at he
  · split at he
    · simp at he
    · simpa [accessSplitStep] using he
  · simp at he

theorem evalCheckPhase_events (d : DataArgs) (t : TrainingArgs) (env : Env) :
    ∀ e ∈ (evalCheckPhase d t env).1, e = .accessSplit (evalSplitName d) := by
  intro e he
  rw [evalCheckPhase] at he
  split at he
  · split at he
    · simp at he
    · simpa [accessSplitStep] using he
  · simp at he

theorem nncfPhase_events (d : DataArgs) (t : TrainingArgs) :
    (nncfPhase d t).1 = [] := by
  rw [nncfPhase]
  split
  · split
    · rfl
    · split <;> rfl
  · rfl

theorem modelPhase_events : modelPhase.1 = [Event.modelConstruct] := rfl

theorem predictCheckPhase_events (d : DataArgs) (t : TrainingArgs) (env : Env) :
    ∀ e ∈ (predictCheckPhase d t env).1, e = .accessSplit (predictSplitName d) := by
  intro e he
  rw [predictCheckPhase] at he
  split at he
  · split at he
    · simp at he
    · simpa [accessSplitStep] using he
  · simp at he

theorem trainPhase_events (t : TrainingArgs) (env : Env) :
    ∀ e ∈ (trainPhase t env).1, ∃ c, e = .train c := by
  intro e he
  rw [trainPhase] at he
  split at he
  · split at he
    · simp only [List.mem_singleton] at he
      exact ⟨_, he⟩
    · simp only [List.mem_singleton] at he
      exact ⟨_, he⟩
  · simp at he

theorem predictPhase_events (d : DataArgs) (t : TrainingArgs) (env : Env) :
    ∀ e ∈ (predictPhase d t env).1,
      (∃ s, e = .predictWrite s) ∨ e = .accessSplit "test_mismatched" := by
  intro e he
  rw [predictPhase] at he
  split at he
  · split at he
    · split at he
      · simp only [List.mem_cons, List.not_mem_nil, or_false] at he
        rcases he with rfl | rfl | rfl
        · exact Or.inr rfl
        · exact Or.inl ⟨_, rfl⟩
        · exact Or.inl ⟨_, rfl⟩
      · simp only [List.mem_singleton] at he
        exact Or.inr he
    · simp only [List.mem_singleton] at he
      exact Or.inl ⟨_, he⟩
  · simp at he

theorem filter_isEvaluate_nil {l : List Event}
    (h : ∀ e ∈ l, isEvaluate e = false) : l.filter isEvaluate = [] :=
  List.filter_eq_nil.mpr (fun a ha => by rw [h a ha]; simp)

/-- Claim C3: with `do_eval` set, an mnli run that completes evaluates
exactly twice — once on `validation_matched` and once on
`validation_mismatched` — and never touches a plain `validation` split,
while a completed run for any other task evaluates exactly once, on
`validation`. -/
theorem evaluation_splits_c3 (d0 : DataArgs) (t : TrainingArgs) (env : Env) :
    (d0.task_name = some "mnli" → t.do_eval = true →
      (mainRun d0 t env).2 = none →
      (mainRun d0 t env).1.filter isEvaluate =
        [.evaluate "validation_matched", .evaluate "validation_mismatched"] ∧
      Event.accessSplit "validation" ∉ (mainRun d0 t env).1) ∧
    (∀ nm : String, d0.task_name = some nm → strLower nm ≠ "mnli" →
      t.do_eval = true → (mainRun d0 t env).2 = none →
      (mainRun d0 t env).1.filter isEvaluate = [.evaluate "validation"]) := by
  constructor
  · intro htask hde hok
    obtain ⟨hall, hev⟩ := runPhases_ok (mainPhases d0 t env) hok
    have hev2 : (mainRun d0 t env).1 =
        ((mainPhases d0 t env).map Prod.fst).flatten := hev
    have hml : strLower "mnli" = "mnli" := by decide
    have hdt : (lowerTaskName d0).task_name = some "mnli" := by
      simp [lowerTaskName, htask, hml]
    have hb : ((lowerTaskName d0).task_name == some "mnli") = true := by
      rw [hdt]; rfl
    have hesn : evalSplitName (lowerTaskName d0) = "validation_matched" := by
      unfold evalSplitName; rw [hb]; rfl
    have heo : (evalPhase (lowerTaskName d0) t env).2 = none :=
      hall _ (by simp [mainPhases])
    by_cases hmm : "validation_mismatched" ∈ env.splits
    case neg =>
      exfalso
      simp [evalPhase, hde, hb, hmm] at heo
    case pos =>
      have hevs : (evalPhase (lowerTaskName d0) t env).1 =
          [.accessSplit "validation_mismatched", .evaluate "validation_matched",
           .evaluate "validation_mismatched"] := by
        simp [evalPhase, hde, hb, hmm, hesn]
      have f1 : (argCheckPhase (lowerTaskName d0)).1.filter isEvaluate = [] := rfl
      have f2 : (checkpointPhase t env).1.filter isEvaluate = [] := by
        rw [checkpointPhase_events]; rfl
      have f3 : (datasetPhase (lowerTaskName d0) t).1.filter isEvaluate = [] :=
        filter_isEvaluate_nil (fun e he => by rw [datasetPhase_events _ _ e he]; rfl)
      have f4 : (labelPhase (lowerTaskName d0) env).1.filter isEvaluate = [] :=
        filter_isEvaluate_nil (fun e he => by rw [labelPhase_events _ _ e he]; rfl)
      have f5 : (trainCheckPhase t env).1.filter isEvaluate = [] :=
        filter_isEvaluate_nil (fun e he => by rw [trainCheckPhase_events _ _ e he]; rfl)
      have f6 : (evalCheckPhase (lowerTaskName d0) t env).1.filter isEvaluate = [] :=
        filter_isEvaluate_nil (fun e he => by rw [evalCheckPhase_events _ _ _ e he]; rfl)
      have f7 : (nncfPhase (lowerTaskName d0) t).1.filter isEvaluate = [] := by
        rw [nncfPhase_events]; rfl
      have f8 : modelPhase.1.filter isEvaluate = [] := rfl
      have f9 : (predictCheckPhase (lowerTaskName d0) t env).1.filter isEvaluate = [] :=
        filter_isEvaluate_nil (fun e he => by rw [predictCheckPhase_events _ _ _ e he]; rfl)
      have f10 : (trainPhase t env).1.filter isEvaluate = [] :=
        filter_isEvaluate_nil (fun e he => by
          obtain ⟨c, rfl⟩ := trainPhase_events t env e he; rfl)
      have f11 : (evalPhase (lowerTaskName d0) t env).1.filter isEvaluate =
          [.evaluate "validation_matched", .evaluate "validation_mismatched"] := by
        rw [hevs]; rfl
      have f12 : (predictPhase (lowerTaskName d0) t env).1.filter isEvaluate = [] :=
        filter_isEvaluate_nil (fun e he => by
          rcases predictPhase_events _ t env e he with ⟨s, rfl⟩ | rfl <;> rfl)
      constructor
      · rw [hev2]
        simp only [mainPhases, List.map_cons, List.map_nil, List.flatten_cons,
          List.flatten_nil, List.filter_append, f1, f2, f3, f4, f5, f6, f7, f8,
          f9, f10, f11, f12, List.nil_append, List.append_nil]
      · intro hmem
        rw [hev2] at hmem
        rcases List.mem_flatten.mp hmem with ⟨l, hl, hel⟩
        simp only [mainPhases, List.map_cons, List.map_nil, List.mem_cons,
          List.not_mem_nil, or_false] at hl
        rcases hl with rfl | rfl | rfl | rfl | rfl | rfl | rfl | rfl | rfl | rfl | rfl | rfl
        · rw [argCheckPhase_events] at hel; cases hel
        · rw [checkpointPhase_events] at hel; cases hel
        · exact absurd (datasetPhase_events _ _ _ hel) (by decide)
        · exact absurd (labelPhase_events _ _ _ hel) (by decide)
        · exact absurd (trainCheckPhase_events _ _ _ hel) (by decide)
        · have h6 := evalCheckPhase_events _ _ _ _ hel
          rw [hesn] at h6
          exact absurd h6 (by decide)
        · rw [nncfPhase_events] at hel; cases hel
        · rw [modelPhase_events] at hel
          simp only [List.mem_singleton] at hel
          cases hel
        · have h9 := predictCheckPhase_events _ _ _ _ hel
          have hpsn : predictSplitName (lowerTaskName d0) = "test_matched" := by
            unfold predictSplitName; rw [hb]; rfl
          rw [hpsn] at h9
          exact absurd h9 (by decide)
        · obtain ⟨c, hc⟩ := trainPhase_events _ _ _ hel
          cases hc
        · rw [hevs] at hel
          simp only [List.mem_cons, List.not_mem_nil, or_false] at hel
          rcases hel with h | h | h <;> exact absurd h (by decide)
        · rcases predictPhase_events _ _ _ _ hel with ⟨s, hs⟩ | hs
          · cases hs
          · exact absurd hs (by decide)
  · intro nm htask hne hde hok
    obtain ⟨hall, hev⟩ := runPhases_ok (mainPhases d0 t env) hok
    have hev2 : (mainRun d0 t env).1 =
        ((mainPhases d0 t env).map Prod.fst).flatten := hev
    have hdt : (lowerTaskName d0).task_name = some (strLower nm) := by
      simp [lowerTaskName, htask]
    have hb : ((lowerTaskName d0).task_name == some "mnli") = false := by
      rw [hdt]
      simp only [beq_eq_false_iff_ne, ne_eq, Option.some.injEq]
      exact hne
    have hesn : evalSplitName (lowerTaskName d0) = "validation" := by
      unfold evalSplitName; rw [hb]; rfl
    have hevs : (evalPhase (lowerTaskName d0) t env).1 = [.evaluate "validation"] := by
      simp [evalPhase, hde, hb, hesn]
    have f1 : (argCheckPhase (lowerTaskName d0)).1.filter isEvaluate = [] := rfl
    have f2 : (checkpointPhase t env).1.filter isEvaluate = [] := by
      rw [checkpointPhase_events]; rfl
    have f3 : (datasetPhase (lowerTaskName d0) t).1.filter isEvaluate = [] :=
      filter_isEvaluate_nil (fun e he => by rw [datasetPhase_events _ _ e he]; rfl)
    have f4 : (labelPhase (lowerTaskName d0) env).1.filter isEvaluate = [] :=
      filter_isEvaluate_nil (fun e he => by rw [labelPhase_events _ _ e he]; rfl)
    have f5 : (trainCheckPhase t env).1.filter isEvaluate = [] :=
      filter_isEvaluate_nil (fun e he => by rw [trainCheckPhase_events _ _ e he]; rfl)
    have f6 : (evalCheckPhase (lowerTaskName d0) t env).1.filter isEvaluate = [] :=
      filter_isEvaluate_nil (fun e he => by rw [evalCheckPhase_events _ _ _ e he]; rfl)
    have f7 : (nncfPhase (lowerTaskName d0) t).1.filter isEvaluate = [] := by
      rw [nncfPhase_events]; rfl
    have f8 : modelPhase.1.filter isEvaluate = [] := rfl
    have f9 : (predictCheckPhase (lowerTaskName d0) t env).1.filter isEvaluate = [] :=
      filter_isEvaluate_nil (fun e he => by rw [predictCheckPhase_events _ _ _ e he]; rfl)
    have f10 : (trainPhase t env).1.filter isEvaluate = [] :=
      filter_isEvaluate_nil (fun e he => by
        obtain ⟨c, rfl⟩ := trainPhase_events t env e he; rfl)
    have f11 : (evalPhase (lowerTaskName d0) t env).1.filter isEvaluate =
        [.evaluate "validation"] := by
      rw [hevs]; rfl
    have f12 : (predictPhase (lowerTaskName d0) t env).1.filter isEvaluate = [] :=
      filter_isEvaluate_nil (fun e he => by
        rcases predictPhase_events _ t env e he with ⟨s, rfl⟩ | rfl <;> rfl)
    rw [hev2]
    simp only [mainPhases, List.map_cons, List.map_nil, List.flatten_cons,
      List.flatten_nil, List.filter_append, f1, f2, f3, f4, f5, f6, f7, f8,
      f9, f10, f11, f12, List.nil_append, List.append_nil]

/-- Witness for C3: an mnli evaluation-only run over the mnli splits, and
an sst2 evaluation-only run over ordinary splits. -/
theorem evaluation_splits_c3_witness :
    ((mainRun ⟨some "mnli", none, none, none, none⟩
        ⟨false, true, false, false, none, false⟩
        ⟨false, false, none,
          ["train", "validation_matched", "validation_mismatched",
           "test_matched", "test_mismatched"]⟩).1.filter isEvaluate =
      [.evaluate "validation_matched", .evaluate "validation_mismatched"] ∧
     Event.accessSplit "validation" ∉
       (mainRun ⟨some "mnli", none, none, none, none⟩
        ⟨false, true, false, false, none, false⟩
        ⟨false, false, none,
          ["train", "validation_matched", "validation_mismatched",
           "test_matched", "test_mismatched"]⟩).1) ∧
    (mainRun ⟨some "sst2", none, none, none, none⟩
        ⟨false, true, false, false, none, false⟩
        ⟨false, false, none, ["train", "validation", "test"]⟩).1.filter isEvaluate =
      [.evaluate "validation"] :=
  ⟨(evaluation_splits_c3 _ _ _).1 rfl rfl (by decide),
   (evaluation_splits_c3 _ _ _).2 "sst2" rfl (by decide) rfl (by decide)⟩

/-- Claim C4: with `do_eval` set and neither a `validation` nor a
`validation_matched` split present, a run that passes the earlier argument,
output-directory, dataset and train checks fails with the
missing-validation error, and the model is never constructed. -/
theorem eval_requires_validation_c4 (d0 : DataArgs) (t : TrainingArgs) (env : Env)
    (hde : t.do_eval = true)
    (hv : "validation" ∉ env.splits)
    (hvm : "validation_matched" ∉ env.splits)
    (h1 : (argCheckPhase (lowerTaskName d0)).2 = none)
    (h2 : (checkpointPhase t env).2 = none)
    (h3 : (datasetPhase (lowerTaskName d0) t).2 = none)
    (h4 : (labelPhase (lowerTaskName d0) env).2 = none)
    (h5 : (trainCheckPhase t env).2 = none) :
    (mainRun d0 t env).2 = some .validationSplitMissing ∧
    Event.modelConstruct ∉ (mainRun d0 t env).1 := by
  have hec : evalCheckPhase (lowerTaskName d0) t env =
      ([], some .validationSplitMissing) := by
    simp [evalCheckPhase, hde, hv, hvm]
  have hpre : ∀ r ∈ [argCheckPhase (lowerTaskName d0), checkpointPhase t env,
      datasetPhase (lowerTaskName d0) t, labelPhase (lowerTaskName d0) env,
      trainCheckPhase t env], r.2 = none := by
    intro r hr
    simp only [List.mem_cons, List.not_mem_nil, or_false] at hr
    rcases hr with rfl | rfl | rfl | rfl | rfl
    exacts [h1, h2, h3, h4, h5]
  have hrun : mainRun d0 t env =
      (([argCheckPhase (lowerTaskName d0), checkpointPhase t env,
         datasetPhase (lowerTaskName d0) t, labelPhase (lowerTaskName d0) env,
         trainCheckPhase t env].map Prod.fst).flatten ++ [],
       some .validationSplitMissing) := by
    show runPhases (mainPhases d0 t env) = _
    rw [show mainPhases d0 t env =
        [argCheckPhase (lowerTaskName d0), checkpointPhase t env,
         datasetPhase (lowerTaskName d0) t, labelPhase (lowerTaskName d0) env,
         trainCheckPhase t env] ++
        (evalCheckPhase (lowerTaskName d0) t env ::
          [nncfPhase (lowerTaskName d0) t, modelPhase,
           predictCheckPhase (lowerTaskName d0) t env, trainPhase t env,
           evalPhase (lowerTaskName d0) t env,
           predictPhase (lowerTaskName d0) t env]) from rfl,
      runPhases_append_ok _ _ hpre, hec, runPhases_cons_some]
  rw [hrun]
  refine ⟨rfl, ?_⟩
  intro hmem
  simp only [List.map_cons, List.map_nil, List.flatten_cons, List.flatten_nil,
    List.append_nil, List.mem_append, List.not_mem_nil, or_false] at hmem
  rcases hmem with hmem | hmem | hmem | hmem | hmem
  · rw [argCheckPhase_events] at hmem
    cases hmem
  · rw [checkpointPhase_events] at hmem
    cases hmem
  · exact absurd (datasetPhase_events _ _ _ hmem) (by decide)
  · exact absurd (labelPhase_events _ _ _ hmem) (by decide)
  · exact absurd (trainCheckPhase_events _ _ _ hmem) (by decide)

/-- Witness for C4: an evaluation-only mrpc run over a dataset that has
only `train` and `test` splits. -/
theorem eval_requires_validation_c4_witness :
    (mainRun ⟨some "mrpc", none, none, none, none⟩
      ⟨false, true, false, false, none, false⟩
      ⟨false, false, none, ["train", "test"]⟩).2 = some .validationSplitMissing ∧
    Event.modelConstruct ∉
      (mainRun ⟨some "mrpc", none, none, none, none⟩
        ⟨false, true, false, false, none, false⟩
        ⟨false, false, none, ["train", "test"]⟩).1 :=
  eval_requires_validation_c4 _ _ _ rfl (by decide) (by decide)
    (by decide) (by decide) (by decide) (by decide) (by decide)

/-- Claim C5: with no task name and no hub dataset name, a train file whose
extension is not csv or json, or a validation file whose extension differs
from the train file's, fails argument validation, and the dataset is never
loaded. -/
theorem local_file_extension_validation_c5 (d0 : DataArgs) (t : TrainingArgs)
    (env : Env) (tf vf : String)
    (htask : d0.task_name = none) (hds : d0.dataset_name = none)
    (htf : d0.train_file = some tf) (hvf : d0.validation_file = some vf)
    (hbad : fileExtension tf ∉ (["csv", "json"] : List String) ∨
      fileExtension vf ≠ fileExtension tf) :
    ((mainRun d0 t env).2 = some .trainFileExtension ∨
     (mainRun d0 t env).2 = some .validationFileExtension) ∧
    Event.loadDataset ∉ (mainRun d0 t env).1 := by
  have hdt : (lowerTaskName d0).task_name = none := by
    simp [lowerTaskName, htask]
  have hdd : (lowerTaskName d0).dataset_name = none := hds
  have htf2 : (lowerTaskName d0).train_file = some tf := htf
  have hvf2 : (lowerTaskName d0).validation_file = some vf := hvf
  have hpic : postInitCheck (lowerTaskName d0) = some .trainFileExtension ∨
      postInitCheck (lowerTaskName d0) = some .validationFileExtension := by
    by_cases hext : fileExtension tf ∈ (["csv", "json"] : List String)
    · right
      have hvfne : fileExtension vf ≠ fileExtension tf := by
        rcases hbad with h | h
        · exact absurd hext h
        · exact h
      simp [postInitCheck, hdt, hdd, htf2, hvf2, hext, hvfne]
    · left
      simp [postInitCheck, hdt, hdd, htf2, hvf2, hext]
  have hrun : ∀ er : RunError, postInitCheck (lowerTaskName d0) = some er →
      mainRun d0 t env = ([], some er) := by
    intro er her
    have hargeq : argCheckPhase (lowerTaskName d0) = ([], some er) := by
      unfold argCheckPhase
      rw [her]
    show runPhases (mainPhases d0 t env) = _
    rw [show mainPhases d0 t env = argCheckPhase (lowerTaskName d0) ::
        [checkpointPhase t env, datasetPhase (lowerTaskName d0) t,
         labelPhase (lowerTaskName d0) env, trainCheckPhase t env,
         evalCheckPhase (lowerTaskName d0) t env, nncfPhase (lowerTaskName d0) t,
         modelPhase, predictCheckPhase (lowerTaskName d0) t env, trainPhase t env,
         evalPhase (lowerTaskName d0) t env,
         predictPhase (lowerTaskName d0) t env] from rfl,
      hargeq, runPhases_cons_some]
  rcases hpic with her | her
  · rw [hrun _ her]
    exact ⟨Or.inl rfl, by simp⟩
  · rw [hrun _ her]
    exact ⟨Or.inr rfl, by simp⟩

/-- Witness for C5: a csv train file with a json validation file. -/
theorem local_file_extension_validation_c5_witness :
    ((mainRun ⟨none, none, some "a.csv", some "b.json", none⟩
        ⟨true, false, false, false, none, false⟩
        ⟨false, false, none, ["train", "validation"]⟩).2 =
        some .trainFileExtension ∨
     (mainRun ⟨none, none, some "a.csv", some "b.json", none⟩
        ⟨true, false, false, false, none, false⟩
        ⟨false, false, none, ["train", "validation"]⟩).2 =
        some .validationFileExtension) ∧
    Event.loadDataset ∉
      (mainRun ⟨none, none, some "a.csv", some "b.json", none⟩
        ⟨true, false, false, false, none, false⟩
        ⟨false, false, none, ["train", "validation"]⟩).1 :=
  local_file_extension_validation_c5 _ _ _ "a.csv" "b.json" rfl rfl rfl rfl
    (Or.inr (by decide))

/-- Claim C7: with training requested, the output directory existing, and
no overwrite flag: a non-empty directory without a detected checkpoint is
fatal; a detected checkpoint with no explicit resume path makes training
resume from that checkpoint. -/
theorem output_dir_checkpoint_c7 (d0 : DataArgs) (t : TrainingArgs) (env : Env) :
    (t.do_train = true → env.output_dir_isdir = true →
      t.overwrite_output_dir = false → env.last_checkpoint_in_dir = none →
      env.output_dir_nonempty = true →
      (argCheckPhase (lowerTaskName d0)).2 = none →
      (mainRun d0 t env).2 = some .outputDirNotEmpty) ∧
    (∀ cp : String, t.do_train = true → env.output_dir_isdir = true →
      t.overwrite_output_dir = false → env.last_checkpoint_in_dir = some cp →
      t.resume_from_checkpoint = none → (mainRun d0 t env).2 = none →
      Event.train (some cp) ∈ (mainRun d0 t env).1) := by
  constructor
  · intro hdt hdir hovr hlast hne h1
    have hcp : checkpointPhase t env = ([], some .outputDirNotEmpty) := by
      simp [checkpointPhase, hdt, hdir, hovr, hlast, hne]
    have hpre : ∀ r ∈ [argCheckPhase (lowerTaskName d0)], r.2 = none := by
      intro r hr
      simp only [List.mem_singleton] at hr
      subst hr
      exact h1
    show (runPhases (mainPhases d0 t env)).2 = _
    rw [show mainPhases d0 t env = [argCheckPhase (lowerTaskName d0)] ++
        (checkpointPhase t env ::
          [datasetPhase (lowerTaskName d0) t, labelPhase (lowerTaskName d0) env,
           trainCheckPhase t env, evalCheckPhase (lowerTaskName d0) t env,
           nncfPhase (lowerTaskName d0) t, modelPhase,
           predictCheckPhase (lowerTaskName d0) t env, trainPhase t env,
           evalPhase (lowerTaskName d0) t env,
           predictPhase (lowerTaskName d0) t env]) from rfl,
      runPhases_append_ok _ _ hpre, hcp, runPhases_cons_some]
  · intro cp hdt hdir hovr hlast hres hok
    obtain ⟨hall, hev⟩ := runPhases_ok (mainPhases d0 t env) hok
    have hev2 : (mainRun d0 t env).1 =
        ((mainPhases d0 t env).map Prod.fst).flatten := hev
    have hlc : lastCheckpoint t env = some cp := by
      simp [lastCheckpoint, hdt, hdir, hovr, hlast]
    have htp : (trainPhase t env).1 = [.train (some cp)] := by
      simp [trainPhase, hdt, hres, hlc]
    rw [hev2]
    refine List.mem_flatten.mpr ⟨(trainPhase t env).1, ?_, ?_⟩
    · simp [mainPhases]
    · rw [htp]
      simp

/-- Witness for C7: an mrpc training run into a non-empty output directory
without a checkpoint (fatal), and the same run with a detected checkpoint
`checkpoint-500` (resumes). -/
theorem output_dir_checkpoint_c7_witness :
    (mainRun ⟨some "mrpc", none, none, none, none⟩
      ⟨true, false, false, false, none, false⟩
      ⟨true, true, none, ["train", "validation", "test"]⟩).2 =
      some .outputDirNotEmpty ∧
    Event.train (some "checkpoint-500") ∈
      (mainRun ⟨some "mrpc", none, none, none, none⟩
        ⟨true, false, false, false, none, false⟩
        ⟨true, true, some "checkpoint-500", ["train", "validation", "test"]⟩).1 :=
  ⟨(output_dir_checkpoint_c7 _ _ _).1 rfl rfl rfl rfl rfl (by decide),
   (output_dir_checkpoint_c7 _ _ _).2 "checkpoint-500" rfl rfl rfl rfl rfl
     (by decide)⟩

/-- Claim C9: a compression config together with `do_train` or `do_eval`
and a task name outside sst2/mrpc/mnli (including no task at all) aborts
with the unbound adapter-class-variable error: the task-to-adapter mapping
is partial. -/
theorem nncf_adapter_partiality_c9 (d0 : DataArgs) (t : TrainingArgs) (env : Env)
    (hn : t.nncf_config = true)
    (hte : t.do_train = true ∨ t.do_eval = true)
    (hna : adapterAssigned (lowerTaskName d0).task_name = false)
    (h1 : (argCheckPhase (lowerTaskName d0)).2 = none)
    (h2 : (checkpointPhase t env).2 = none)
    (h3 : (datasetPhase (lowerTaskName d0) t).2 = none)
    (h4 : (labelPhase (lowerTaskName d0) env).2 = none)
    (h5 : (trainCheckPhase t env).2 = none)
    (h6 : (evalCheckPhase (lowerTaskName d0) t env).2 = none) :
    (mainRun d0 t env).2 = some .unboundInitializingDataLoaderCls := by
  have hnp : nncfPhase (lowerTaskName d0) t =
      ([], some .unboundInitializingDataLoaderCls) := by
    rcases hte with h | h
    · simp [nncfPhase, hn, h, hna]
    · cases hdt : t.do_train with
      | true => simp [nncfPhase, hn, hdt, hna]
      | false => simp [nncfPhase, hn, hdt, h, hna]
  have hpre : ∀ r ∈ [argCheckPhase (lowerTaskName d0), checkpointPhase t env,
      datasetPhase (lowerTaskName d0) t, labelPhase (lowerTaskName d0) env,
      trainCheckPhase t env, evalCheckPhase (lowerTaskName d0) t env],
      r.2 = none := by
    intro r hr
    simp only [List.mem_cons, List.not_mem_nil, or_false] at hr
    rcases hr with rfl | rfl | rfl | rfl | rfl | rfl
    exacts [h1, h2, h3, h4, h5, h6]
  show (runPhases (mainPhases d0 t env)).2 = _
  rw [show mainPhases d0 t env =
      [argCheckPhase (lowerTaskName d0), checkpointPhase t env,
       datasetPhase (lowerTaskName d0) t, labelPhase (lowerTaskName d0) env,
       trainCheckPhase t env, evalCheckPhase (lowerTaskName d0) t env] ++
      (nncfPhase (lowerTaskName d0) t ::
        [modelPhase, predictCheckPhase (lowerTaskName d0) t env,
         trainPhase t env, evalPhase (lowerTaskName d0) t env,
         predictPhase (lowerTaskName d0) t env]) from rfl,
    runPhases_append_ok _ _ hpre, hnp, runPhases_cons_some]

/-- Witness for C9: a compression config with `do_eval` over a hub dataset
with no task name. -/
theorem nncf_adapter_partiality_c9_witness :
    (mainRun ⟨none, some "imdb", none, none, none⟩
      ⟨false, true, false, false, none, true⟩
      ⟨false, false, none, ["train", "validation"]⟩).2 =
      some .unboundInitializingDataLoaderCls :=
  nncf_adapter_partiality_c9 _ _ _ rfl (Or.inr rfl) (by decide) (by decide)
    (by decide) (by decide) (by decide) (by decide) (by decide)

/-- Claim C10: the test-split check fires whenever a task name or a test
file is supplied, even with `do_predict` false: without a `test` or
`test_matched` split the run aborts with the test-dataset error. -/
theorem test_split_check_trigger_c10 (d0 : DataArgs) (t : TrainingArgs) (env : Env)
    (hp : t.do_predict = false)
    (hsup : d0.task_name.isSome = true ∨ d0.test_file.isSome = true)
    (ht : "test" ∉ env.splits)
    (htm : "test_matched" ∉ env.splits)
    (h1 : (argCheckPhase (lowerTaskName d0)).2 = none)
    (h2 : (checkpointPhase t env).2 = none)
    (h3 : (datasetPhase (lowerTaskName d0) t).2 = none)
    (h4 : (labelPhase (lowerTaskName d0) env).2 = none)
    (h5 : (trainCheckPhase t env).2 = none)
    (h6 : (evalCheckPhase (lowerTaskName d0) t env).2 = none)
    (h7 : (nncfPhase (lowerTaskName d0) t).2 = none) :
    (mainRun d0 t env).2 = some .testSplitMissing := by
  have hsup2 : (t.do_predict || (lowerTaskName d0).task_name.isSome ||
      (lowerTaskName d0).test_file.isSome) = true := by
    rcases hsup with h | h
    · obtain ⟨nm, hnm⟩ := Option.isSome_iff_exists.mp h
      simp [lowerTaskName, hnm]
    · obtain ⟨f, hf⟩ := Option.isSome_iff_exists.mp h
      simp [lowerTaskName, hf]
  have hpc : predictCheckPhase (lowerTaskName d0) t env =
      ([], some .testSplitMissing) := by
    simp only [predictCheckPhase, hsup2, if_true]
    simp [ht, htm]
  have hpre : ∀ r ∈ [argCheckPhase (lowerTaskName d0), checkpointPhase t env,
      datasetPhase (lowerTaskName d0) t, labelPhase (lowerTaskName d0) env,
      trainCheckPhase t env, evalCheckPhase (lowerTaskName d0) t env,
      nncfPhase (lowerTaskName d0) t, modelPhase], r.2 = none := by
    intro r hr
    simp only [List.mem_cons, List.not_mem_nil, or_false] at hr
    rcases hr with rfl | rfl | rfl | rfl | rfl | rfl | rfl | rfl
    exacts [h1, h2, h3, h4, h5, h6, h7, rfl]
  show (runPhases (mainPhases d0 t env)).2 = _
  rw [show mainPhases d0 t env =
      [argCheckPhase (lowerTaskName d0), checkpointPhase t env,
       datasetPhase (lowerTaskName d0) t, labelPhase (lowerTaskName d0) env,
       trainCheckPhase t env, evalCheckPhase (lowerTaskName d0) t env,
       nncfPhase (lowerTaskName d0) t, modelPhase] ++
      (predictCheckPhase (lowerTaskName d0) t env ::
        [trainPhase t env, evalPhase (lowerTaskName d0) t env,
         predictPhase (lowerTaskName d0) t env]) from rfl,
    runPhases_append_ok _ _ hpre, hpc, runPhases_cons_some]

/-- Witness for C10: an mrpc run with every phase flag off over a dataset
without test splits. -/
theorem test_split_check_trigger_c10_witness :
    (mainRun ⟨some "mrpc", none, none, none, none⟩
      ⟨false, false, false, false, none, false⟩
      ⟨false, false, none, ["train", "validation"]⟩).2 =
      some .testSplitMissing :=
  test_split_check_trigger_c10 _ _ _ rfl (Or.inl rfl) (by decide) (by decide)
    (by decide) (by decide) (by decide) (by decide) (by decide) (by decide)
    (by decide)

end RunGlue

